import Mathlib

/-!
Verification development for the BillExtractorAI repository.

The definitions below are a shallow embedding of the document-fetching and
MIME-normalization logic of `src/services/geminiService.ts` and of the
HTTP error paths of `src/server.js`.  Network effects (the browser `fetch`
call performed by each retrieval strategy) are modelled by an explicit
environment mapping a strategy's name to the outcome the network produced
for that strategy's single request.
-/

namespace BillExtractor

/-- JS `String.prototype.endsWith`: `pat` is a suffix of `s` (on code points). -/
def strEndsWith (s pat : String) : Bool :=
  decide (pat.data <:+ s.data)

/-- JS `String.prototype.includes` / regex substring match: `pat` occurs
contiguously inside `s` (on code points). -/
def strContains (s pat : String) : Bool :=
  decide (pat.data <:+: s.data)

/-- JS `Array.prototype.join(sep)` on an array of strings. -/
def joinWith (sep : String) : List String → String
  | [] => ""
  | [x] => x
  | x :: y :: rest => x ++ sep ++ joinWith sep (y :: rest)

/-- JS `String.prototype.toLowerCase` on the code points (the source only
relies on its effect on ASCII letters). -/
def strToLower (s : String) : String := ⟨s.data.map Char.toLower⟩

/-- Splits a character list at every occurrence of `c`, JS
`String.prototype.split` style (no separator occurrence yields one piece,
a trailing separator yields a trailing empty piece). -/
def splitChar (c : Char) : List Char → List (List Char)
  | [] => [[]]
  | x :: rest =>
    let r := splitChar c rest
    if x = c then [] :: r
    else
      match r with
      | [] => [[x]]
      | h :: t => (x :: h) :: t

/-- JS `String.prototype.split` with a one-character separator. -/
def jsSplit (s : String) (c : Char) : List String :=
  (splitChar c s.data).map fun l => ⟨l⟩

/-- Embeds `getMimeType` of `src/services/geminiService.ts` (lines 5-16):
the blob's declared type is kept unless it is falsy (empty) or one of the
two generic types; otherwise the type is inferred from the extension of
the query-stripped, lower-cased URL, defaulting to `application/pdf`. -/
def cleanLower (url : String) : String := strToLower ((jsSplit url '?').headD "")

def getMimeType (url blobType : String) : String :=
  if blobType ≠ "" ∧ blobType ≠ "application/octet-stream" ∧
      blobType ≠ "application/x-www-form-urlencoded" then
    blobType
  else
    if strEndsWith (cleanLower url) ".png" then "image/png"
    else if strEndsWith (cleanLower url) ".jpg" || strEndsWith (cleanLower url) ".jpeg" then
      "image/jpeg"
    else if strEndsWith (cleanLower url) ".pdf" then "application/pdf"
    else if strEndsWith (cleanLower url) ".webp" then "image/webp"
    else "application/pdf"

/-- A retrieved body, as the browser `Blob` API exposes it to this code:
a declared content type, a byte size, and the data-URL the `FileReader`
produces for it (`reader.result` of `readAsDataURL`). -/
structure Blob where
  type : String
  size : Nat
  dataUrl : String
deriving Repr, DecidableEq

/-- A `fetch` response as used by `urlToGenerativePart`: the `ok` flag,
status, status text and the body blob obtained by `res.blob()`. -/
structure Response where
  ok : Bool
  status : Nat
  statusText : String
  blob : Blob
deriving Repr, DecidableEq

/-- Outcome of one strategy's `fetch` call: either the promise rejected
(network error, modelled with the thrown message) or a response arrived. -/
inductive FetchOutcome where
  | netError (msg : String)
  | resp (r : Response)
deriving Repr, DecidableEq

/-- The normalized payload (`{ inlineData: { data, mimeType } }`) returned
to the extraction call. -/
structure InlineData where
  data : String
  mimeType : String
deriving Repr, DecidableEq

/-- Embeds the inner `blobToBase64` helper of `urlToGenerativePart`
(geminiService.ts lines 41-58): the base64 payload is the part of the
FileReader data-URL after the first comma, and the MIME type is
`getMimeType url blob.type`. -/
def blobToBase64 (url : String) (b : Blob) : InlineData :=
  ⟨(jsSplit b.dataUrl ',').getD 1 "", getMimeType url b.type⟩

/-- Embeds `isImage` (geminiService.ts line 60): the case-insensitive regex
`/\.(jpeg|jpg|png|webp|gif)($|\?)/i` tests whether a dot followed by an
image extension occurs either at the end of the URL or followed by `?`. -/
def isImage (url : String) : Bool :=
  (strContains (strToLower url) ".jpeg?" || strEndsWith (strToLower url) ".jpeg") ||
  (strContains (strToLower url) ".jpg?" || strEndsWith (strToLower url) ".jpg") ||
  (strContains (strToLower url) ".png?" || strEndsWith (strToLower url) ".png") ||
  (strContains (strToLower url) ".webp?" || strEndsWith (strToLower url) ".webp") ||
  (strContains (strToLower url) ".gif?" || strEndsWith (strToLower url) ".gif")

/-- One entry of the `strategies` array: a name, the `skip` flag (absent in
the source for all but WeServer, hence `false` there, since `undefined` is
falsy), and the URL its `fn` would fetch. -/
structure Strategy where
  name : String
  skip : Bool
  requestUrl : String
deriving Repr, DecidableEq

/-- Embeds the `strategies` array of `urlToGenerativePart`
(geminiService.ts lines 63-90).  `enc` stands for the browser builtin
`encodeURIComponent`, an external pure function. -/
def strategiesFor (enc : String → String) (url : String) : List Strategy :=
  [ ⟨"Direct", false, url⟩,
    ⟨"WeServer", !(isImage url),
      "https://images.weserv.nl/?url=" ++ enc url ++ "&output=jpg&we&il"⟩,
    ⟨"CorsProxy.io", false, "https://corsproxy.io/?" ++ enc url⟩,
    ⟨"AllOrigins", false, "https://api.allorigins.win/raw?url=" ++ enc url⟩,
    ⟨"ThingProxy", false, "https://thingproxy.freeboard.io/fetch/" ++ url⟩ ]

/-- One iteration body of the strategy loop (geminiService.ts lines 97-123),
for a non-skipped strategy: a rejected fetch propagates its message; a
non-ok response throws `HTTP <status>: <statusText>`; an HTML content type
throws the error-page message; a body under 100 bytes throws the
too-small message; otherwise the blob is accepted and converted. -/
def attemptStrategy (url : String) (env : String → FetchOutcome) (s : Strategy) :
    Except String InlineData :=
  match env s.name with
  | FetchOutcome.netError msg => Except.error msg
  | FetchOutcome.resp r =>
    if !r.ok then
      Except.error ("HTTP " ++ toString r.status ++ ": " ++ r.statusText)
    else if strContains r.blob.type "text/html" then
      Except.error "Received HTML instead of binary data (likely an error page)"
    else if r.blob.size < 100 then
      Except.error ("Blob size too small (" ++ toString r.blob.size ++ " bytes)")
    else
      Except.ok (blobToBase64 url r.blob)

/-- The failure message an attempt produced (meaningful when the attempt
failed; `""` otherwise). -/
def attemptErrMsg (url : String) (env : String → FetchOutcome) (s : Strategy) : String :=
  match attemptStrategy url env s with
  | Except.error m => m
  | Except.ok _ => ""

/-- Embeds the `for (const strategy of strategies)` loop of
`urlToGenerativePart` (lines 92-124): skipped strategies are passed over;
the first accepted result is returned; failures append
`"<name>: <message>"` to the `errors` accumulator. -/
def fetchLoop (url : String) (env : String → FetchOutcome) :
    List Strategy → List String → InlineData ⊕ List String
  | [], errs => Sum.inr errs
  | s :: rest, errs =>
    if s.skip then fetchLoop url env rest errs
    else
      match attemptStrategy url env s with
      | Except.ok part => Sum.inl part
      | Except.error msg => fetchLoop url env rest (errs ++ [s.name ++ ": " ++ msg])

/-- Embeds `urlToGenerativePart` (geminiService.ts lines 39-127): run the
loop over the strategy list; on exhaustion throw the aggregate message
built from the full list's length and the joined error details. -/
def urlToGenerativePart (enc : String → String) (url : String)
    (env : String → FetchOutcome) : Except String InlineData :=
  let strategies := strategiesFor enc url
  match fetchLoop url env strategies [] with
  | Sum.inl part => Except.ok part
  | Sum.inr errs =>
    Except.error ("Failed to fetch document. Tried " ++ toString strategies.length ++
      " methods.\nDetails:\n" ++ joinWith "\n" errs)

/-- The names of the strategies the loop actually attempts, in order:
skipped entries are passed over, and the trace stops at the first
accepted strategy. -/
def attemptedNames (url : String) (env : String → FetchOutcome) :
    List Strategy → List String
  | [] => []
  | s :: rest =>
    if s.skip then attemptedNames url env rest
    else
      match attemptStrategy url env s with
      | Except.ok _ => [s.name]
      | Except.error _ => s.name :: attemptedNames url env rest

/-- The names of the applicable (non-skipped) strategies, in list order. -/
def applicableNames (enc : String → String) (url : String) : List String :=
  ((strategiesFor enc url).filter fun s => !s.skip).map fun s => s.name

/-- A browser `File` as `fileToGenerativePart` consumes it: its declared
`type` and the data-URL the `FileReader` produces for its bytes. -/
structure JSFile where
  type : String
  dataUrl : String
deriving Repr, DecidableEq

/-- Embeds `fileToGenerativePart` (geminiService.ts lines 19-36): the
base64 payload is the part of the data-URL after the first comma, and the
MIME type is the file's own declared `type`, used as-is. -/
def fileToGenerativePart (file : JSFile) : InlineData :=
  ⟨(jsSplit file.dataUrl ',').getD 1 "", file.type⟩

/-- The input accepted by `extractBillData` (geminiService.ts line 182):
a URL string or a local `File`. -/
inductive BillInput where
  | url (s : String)
  | file (f : JSFile)
deriving Repr, DecidableEq

/-- Embeds the file-part dispatch of `extractBillData` (geminiService.ts
lines 189-195): strings go through `urlToGenerativePart`, files through
`fileToGenerativePart` (which performs no network call, hence ignores the
network environment `env`). -/
def extractBillFilePart (enc : String → String) (env : String → FetchOutcome) :
    BillInput → Except String InlineData
  | BillInput.url s => urlToGenerativePart enc s env
  | BillInput.file f => Except.ok (fileToGenerativePart f)

/-- JS falsiness of a nullable string (`!x` for `null`/`undefined`/`""`). -/
def jsFalsyStr : Option String → Bool
  | none => true
  | some s => s == ""

/-- Embeds the extension fallback of the server-side `urlToGenerativePart`
(server.js lines 96-102): png, jpg/jpeg, webp, else `application/pdf`. -/
def serverUrlMimeFallback (url : String) : String :=
  let lowerUrl := strToLower url
  if strEndsWith lowerUrl ".png" then "image/png"
  else if strEndsWith lowerUrl ".jpg" || strEndsWith lowerUrl ".jpeg" then "image/jpeg"
  else if strEndsWith lowerUrl ".webp" then "image/webp"
  else "application/pdf"

/-- Embeds the MIME selection of the server-side `urlToGenerativePart`
(server.js lines 93-102): keep the response's `content-type` header unless
it is falsy (`null` or empty) or one of the two octet-stream types, in
which case fall back to the URL extension. -/
def serverMimeType (url : String) (contentType : Option String) : String :=
  if jsFalsyStr contentType = true ∨ contentType = some "application/octet-stream" ∨
      contentType = some "binary/octet-stream" then
    serverUrlMimeFallback url
  else
    contentType.getD ""

/-- A JSON error body sent by the `/extract-bill-data` route: the
`is_success` field is present only on some paths, `error` always is. -/
structure ErrorBody where
  is_success : Option Bool
  error : String
deriving Repr, DecidableEq

/-- Outcome of the `/extract-bill-data` route, as far as its failure
shape is concerned. -/
inductive RouteResult where
  | failure (status : Nat) (body : ErrorBody)
  | success (status : Nat)
deriving Repr, DecidableEq

/-- Embeds the failure paths of `app.post('/extract-bill-data')`
(server.js lines 122-218): a falsy `document` yields
`400 {error: "No document URL provided"}` (no `is_success` field); a
falsy `API_KEY` yields `500 {error: "Server misconfiguration: API_KEY missing"}`
(no `is_success` field); any error thrown by the fetch/extraction pipeline
(modelled by `extraction`) is caught and yields
`500 {is_success: false, error: <message>}`; otherwise the parsed data is
sent with status 200. -/
def extractBillDataRoute (document apiKey : Option String)
    (extraction : Except String Unit) : RouteResult :=
  if jsFalsyStr document then
    RouteResult.failure 400 ⟨none, "No document URL provided"⟩
  else if jsFalsyStr apiKey then
    RouteResult.failure 500 ⟨none, "Server misconfiguration: API_KEY missing"⟩
  else
    match extraction with
    | Except.error msg => RouteResult.failure 500 ⟨some false, msg⟩
    | Except.ok _ => RouteResult.success 200

/-! ## Helper lemmas about the string primitives -/

/-- `strContains` unfolds to contiguous containment of the code points. -/
lemma strContains_eq (s p : String) : strContains s p = true ↔ p.data <:+: s.data := by
  simp [strContains]

/-- Containment is preserved by extending the haystack on the left. -/
lemma strContains_addLeft (s t p : String) (h : strContains t p = true) :
    strContains (s ++ t) p = true := by
  rw [strContains_eq] at h ⊢
  obtain ⟨a, b, hab⟩ := h
  exact ⟨s.data ++ a, b, by rw [String.data_append, ← hab]; simp [List.append_assoc]⟩

/-- Containment is preserved by extending the haystack on the right. -/
lemma strContains_addRight (s t p : String) (h : strContains s p = true) :
    strContains (s ++ t) p = true := by
  rw [strContains_eq] at h ⊢
  obtain ⟨a, b, hab⟩ := h
  exact ⟨a, b ++ t.data, by rw [String.data_append, ← hab]; simp [List.append_assoc]⟩

/-- Every string contains itself. -/
lemma strContains_refl (p : String) : strContains p p = true := by
  rw [strContains_eq]

/-- Every element of a list is contained in the joined string. -/
lemma mem_joinWith (sep : String) :
    ∀ (l : List String) (e : String), e ∈ l → strContains (joinWith sep l) e = true := by
  intro l
  induction l with
  | nil => intro e he; simp at he
  | cons x rest ih =>
    intro e he
    cases rest with
    | nil =>
      have hx : e = x := by simpa using he
      rw [hx]
      simpa [joinWith] using strContains_refl x
    | cons y rest' =>
      rcases List.mem_cons.mp he with hx | hmem
      · rw [hx]
        show strContains (x ++ sep ++ joinWith sep (y :: rest')) x = true
        exact strContains_addRight _ _ _ (strContains_addRight _ _ _ (strContains_refl x))
      · show strContains (x ++ sep ++ joinWith sep (y :: rest')) e = true
        exact strContains_addLeft _ _ _ (ih e hmem)

/-! ## Characterization of the strategy loop -/

/-- If the loop exhausts its list, every applicable strategy in the list
was attempted and failed, and the final error accumulator extends the
initial one with exactly one `"<name>: <message>"` entry per applicable
strategy, in list order. -/
lemma fetchLoop_exhausted (url : String) (env : String → FetchOutcome) :
    ∀ (l : List Strategy) (acc errs : List String),
      fetchLoop url env l acc = Sum.inr errs →
      (∀ s ∈ l, s.skip = false →
        attemptStrategy url env s = Except.error (attemptErrMsg url env s)) ∧
      errs = acc ++ (l.filter fun s => !s.skip).map
        (fun s => s.name ++ ": " ++ attemptErrMsg url env s) := by
  intro l
  induction l with
  | nil =>
    intro acc errs h
    simp [fetchLoop] at h
    simp [h]
  | cons s rest ih =>
    intro acc errs h
    cases hsk : s.skip with
    | true =>
      simp only [fetchLoop, hsk, if_true] at h
      obtain ⟨h1, h2⟩ := ih acc errs h
      constructor
      · intro s' hs' hskip'
        rcases List.mem_cons.mp hs' with heq | hmem
        · rw [← heq] at hsk; rw [hskip'] at hsk; cases hsk
        · exact h1 s' hmem hskip'
      · simpa [List.filter_cons, hsk] using h2
    | false =>
      cases hat : attemptStrategy url env s with
      | ok part => simp [fetchLoop, hsk, hat] at h
      | error m =>
        simp only [fetchLoop, hsk, Bool.false_eq_true, if_false, hat] at h
        obtain ⟨h1, h2⟩ := ih _ _ h
        have hmsg : attemptErrMsg url env s = m := by simp [attemptErrMsg, hat]
        constructor
        · intro s' hs' hskip'
          rcases List.mem_cons.mp hs' with heq | hmem
          · rw [heq, hmsg]; exact hat
          · exact h1 s' hmem hskip'
        · rw [h2]
          simp [List.filter_cons, hsk, hmsg, List.append_assoc]

/-- The list of attempted strategy names extends to the full list of
applicable names: attempts happen in list order with no repetition and no
reordering, stopping early only at the first success. -/
lemma attemptedNames_extends (url : String) (env : String → FetchOutcome) :
    ∀ l : List Strategy,
      attemptedNames url env l <+: ((l.filter fun s => !s.skip).map fun s => s.name) := by
  intro l
  induction l with
  | nil => exact ⟨[], rfl⟩
  | cons s rest ih =>
    cases hsk : s.skip with
    | true => simpa [attemptedNames, hsk, List.filter_cons] using ih
    | false =>
      cases hat : attemptStrategy url env s with
      | ok part =>
        refine ⟨(rest.filter fun s => !s.skip).map fun s => s.name, ?_⟩
        simp [attemptedNames, hsk, hat, List.filter_cons]
      | error m =>
        obtain ⟨t, ht⟩ := ih
        refine ⟨t, ?_⟩
        simp [attemptedNames, hsk, hat, List.filter_cons, ← ht]

/-- When every applicable strategy fails, the attempted names are exactly
the applicable names, in order. -/
lemma attemptedNames_exhausted (url : String) (env : String → FetchOutcome) :
    ∀ l : List Strategy,
      (∀ s ∈ l, s.skip = false → ∃ m, attemptStrategy url env s = Except.error m) →
      attemptedNames url env l = ((l.filter fun s => !s.skip).map fun s => s.name) := by
  intro l
  induction l with
  | nil => intro _; simp [attemptedNames]
  | cons s rest ih =>
    intro hall
    have hrest := ih fun s' hs' h => hall s' (List.mem_cons_of_mem _ hs') h
    cases hsk : s.skip with
    | true =>
      simpa [attemptedNames, hsk, List.filter_cons] using hrest
    | false =>
      obtain ⟨m, hm⟩ := hall s (List.mem_cons_self _ _) hsk
      simp [attemptedNames, hsk, hm, List.filter_cons, hrest]

/-- `strEndsWith` unfolds to the suffix relation on code points. -/
lemma strEndsWith_eq (s p : String) : strEndsWith s p = true ↔ p.data <:+ s.data := by
  simp [strEndsWith]

/-- Two incomparable suffix patterns cannot both end the same string. -/
lemma endsWith_clash {p q : String} (s : String)
    (h1 : ¬ p.data <:+ q.data) (h2 : ¬ q.data <:+ p.data)
    (h : strEndsWith s p = true) : strEndsWith s q = false := by
  rw [strEndsWith_eq] at h
  by_contra hq
  rw [Bool.not_eq_false, strEndsWith_eq] at hq
  rcases List.suffix_or_suffix_of_suffix h hq with hh | hh
  exacts [h1 hh, h2 hh]

/-! ## Test fixtures used by the concrete witnesses -/

/-- A network environment in which every request dies with message boom. -/
def allFailEnv : String → FetchOutcome :=
  fun _ => FetchOutcome.netError "boom"

/-- A network environment whose Direct request succeeds with a healthy
PNG body; every other request dies. -/
def directOkEnv : String → FetchOutcome := fun n =>
  if n = "Direct" then
    FetchOutcome.resp ⟨true, 200, "OK", ⟨"image/png", 12345, "data:image/png;base64,QUJD"⟩⟩
  else
    FetchOutcome.netError "unreachable"

/-! ## The claims -/

/-- Claim C1: for every URL input, `urlToGenerativePart` fails with the
aggregate error only after every applicable (non-skipped) strategy has
been attempted and failed, and in that case the diagnostic detail of the
error message contains, for every attempted strategy, its name together
with its failure reason. -/
theorem urlFetch_exhausted_enumerates_all_attempts
    (enc : String → String) (url : String) (env : String → FetchOutcome) (msg : String)
    (h : urlToGenerativePart enc url env = Except.error msg) :
    attemptedNames url env (strategiesFor enc url) = applicableNames enc url ∧
    ∀ s ∈ strategiesFor enc url, s.skip = false →
      attemptStrategy url env s = Except.error (attemptErrMsg url env s) ∧
      strContains msg (s.name ++ ": " ++ attemptErrMsg url env s) = true := by
  simp only [urlToGenerativePart] at h
  cases hfl : fetchLoop url env (strategiesFor enc url) [] with
  | inl part => rw [hfl] at h; simp at h
  | inr errs =>
    rw [hfl] at h
    simp only [Except.error.injEq] at h
    obtain ⟨h1, h2⟩ := fetchLoop_exhausted url env _ [] errs hfl
    refine ⟨attemptedNames_exhausted url env _ (fun s hs hskip => ⟨_, h1 s hs hskip⟩), ?_⟩
    intro s hs hskip
    refine ⟨h1 s hs hskip, ?_⟩
    have hsf : s ∈ (strategiesFor enc url).filter fun s => !s.skip :=
      List.mem_filter.mpr ⟨hs, by simp [hskip]⟩
    have hentry : (s.name ++ ": " ++ attemptErrMsg url env s) ∈ errs := by
      rw [h2]
      simpa using
        List.mem_map_of_mem (fun s => s.name ++ ": " ++ attemptErrMsg url env s) hsf
    rw [← h]
    exact strContains_addLeft _ _ _ (mem_joinWith "\n" errs _ hentry)

/-- Concrete run of C1: with every request failing, the Direct strategy is
recorded as failed and its name and reason appear in the aggregate error. -/
theorem urlFetch_exhausted_enumerates_all_attempts_witness :
    attemptedNames "u" allFailEnv (strategiesFor id "u") = applicableNames id "u" ∧
    attemptStrategy "u" allFailEnv ⟨"Direct", false, "u"⟩ =
      Except.error (attemptErrMsg "u" allFailEnv ⟨"Direct", false, "u"⟩) ∧
    strContains
      "Failed to fetch document. Tried 5 methods.\nDetails:\nDirect: boom\nCorsProxy.io: boom\nAllOrigins: boom\nThingProxy: boom"
      ("Direct" ++ ": " ++ attemptErrMsg "u" allFailEnv ⟨"Direct", false, "u"⟩) = true := by
  have h := urlFetch_exhausted_enumerates_all_attempts id "u" allFailEnv
    "Failed to fetch document. Tried 5 methods.\nDetails:\nDirect: boom\nCorsProxy.io: boom\nAllOrigins: boom\nThingProxy: boom"
    (by rfl)
  have h2 := h.2 ⟨"Direct", false, "u"⟩ (by simp [strategiesFor]) rfl
  exact ⟨h.1, h2.1, h2.2⟩

/-- Claim C2: if the Direct strategy's response is ok with a non-HTML body
of size at least 100 bytes, the fetcher returns that result immediately
and attempts no other strategy; and in general, once a strategy's result
is accepted, no later strategy in the list is attempted. -/
theorem urlFetch_first_success_stops
    (enc : String → String) (url : String) (env : String → FetchOutcome) (r : Response)
    (henv : env "Direct" = FetchOutcome.resp r) (hok : r.ok = true)
    (hhtml : strContains r.blob.type "text/html" = false) (hsize : 100 ≤ r.blob.size) :
    urlToGenerativePart enc url env = Except.ok (blobToBase64 url r.blob) ∧
    attemptedNames url env (strategiesFor enc url) = ["Direct"] ∧
    ∀ (s : Strategy) (rest : List Strategy) (part : InlineData),
      s.skip = false → attemptStrategy url env s = Except.ok part →
      attemptedNames url env (s :: rest) = [s.name] := by
  have hnl : ¬ r.blob.size < 100 := by omega
  have hatt : attemptStrategy url env ⟨"Direct", false, url⟩ =
      Except.ok (blobToBase64 url r.blob) := by
    simp [attemptStrategy, henv, hok, hhtml, hnl]
  refine ⟨?_, ?_, ?_⟩
  · simp [urlToGenerativePart, strategiesFor, fetchLoop, hatt]
  · simp [attemptedNames, strategiesFor, hatt]
  · intro s rest part hskip hat
    simp [attemptedNames, hskip, hat]

/-- Concrete run of C2: a healthy Direct PNG response is returned at once
and the attempted-strategy trace is exactly the Direct strategy. -/
theorem urlFetch_first_success_stops_witness :
    urlToGenerativePart id "http://x/a.png" directOkEnv =
      Except.ok ⟨"QUJD", "image/png"⟩ ∧
    attemptedNames "http://x/a.png" directOkEnv (strategiesFor id "http://x/a.png") =
      ["Direct"] := by
  have h := urlFetch_first_success_stops id "http://x/a.png" directOkEnv
    ⟨true, 200, "OK", ⟨"image/png", 12345, "data:image/png;base64,QUJD"⟩⟩
    (by rfl) rfl (by decide) (by decide)
  refine ⟨?_, h.2.1⟩
  rw [h.1]
  congr 1

/-- Claim C3: the strategies are attempted strictly sequentially in the
fixed priority order Direct, WeServer, CorsProxy.io, AllOrigins,
ThingProxy, skipping exactly the entries whose skip flag is set, and
within one invocation no strategy is attempted more than once. -/
theorem strategies_sequential_fixed_order
    (enc : String → String) (url : String) (env : String → FetchOutcome) :
    ((strategiesFor enc url).map fun s => s.name) =
      ["Direct", "WeServer", "CorsProxy.io", "AllOrigins", "ThingProxy"] ∧
    attemptedNames url env (strategiesFor enc url) <+: applicableNames enc url ∧
    (attemptedNames url env (strategiesFor enc url)).Nodup := by
  refine ⟨rfl, attemptedNames_extends url env _, ?_⟩
  obtain ⟨t, ht⟩ := attemptedNames_extends url env (strategiesFor enc url)
  have happ : (((strategiesFor enc url).filter fun s => !s.skip).map fun s => s.name).Nodup := by
    cases himg : isImage url with
    | true =>
      have hl : ((strategiesFor enc url).filter fun s => !s.skip).map (fun s => s.name) =
          ["Direct", "WeServer", "CorsProxy.io", "AllOrigins", "ThingProxy"] := by
        simp [strategiesFor, himg, List.filter_cons]
      rw [hl]; decide
    | false =>
      have hl : ((strategiesFor enc url).filter fun s => !s.skip).map (fun s => s.name) =
          ["Direct", "CorsProxy.io", "AllOrigins", "ThingProxy"] := by
        simp [strategiesFor, himg, List.filter_cons]
      rw [hl]; decide
  have hcat : (attemptedNames url env (strategiesFor enc url) ++ t).Nodup := by
    rw [ht]; exact happ
  exact hcat.of_append_left

/-- Claim C4, counterexample: the URL `a.png?b.pdf` ends in `.pdf`, yet the
image regex matches the embedded `.png?`, so the WeServer strategy is NOT
skipped for it — the claim's second half fails on this input. -/
theorem weServer_pdf_url_counterexample :
    strEndsWith "a.png?b.pdf" ".pdf" = true ∧
    isImage "a.png?b.pdf" = true ∧
    "WeServer" ∈ applicableNames id "a.png?b.pdf" := by
  decide

/-- Claim C4 (amended): for every URL ending (case-insensitively) in
`.png`, `.jpg`, `.jpeg`, `.webp` or `.gif` the WeServer strategy is in the
applicable (non-skipped) set; for every URL ending in `.pdf` that does not
contain an image extension immediately followed by `?`, it is excluded. -/
theorem weServer_applicability (enc : String → String) (url : String) :
    ((strEndsWith (strToLower url) ".png" || strEndsWith (strToLower url) ".jpg" ||
      strEndsWith (strToLower url) ".jpeg" || strEndsWith (strToLower url) ".webp" ||
      strEndsWith (strToLower url) ".gif") = true →
      "WeServer" ∈ applicableNames enc url) ∧
    (strEndsWith (strToLower url) ".pdf" = true →
      strContains (strToLower url) ".jpeg?" = false →
      strContains (strToLower url) ".jpg?" = false →
      strContains (strToLower url) ".png?" = false →
      strContains (strToLower url) ".webp?" = false →
      strContains (strToLower url) ".gif?" = false →
      "WeServer" ∉ applicableNames enc url) := by
  constructor
  · intro h
    have himg : isImage url = true := by
      simp only [Bool.or_eq_true] at h
      rcases h with ((((h | h) | h) | h) | h) <;> simp [isImage, h]
    have hl : applicableNames enc url =
        ["Direct", "WeServer", "CorsProxy.io", "AllOrigins", "ThingProxy"] := by
      simp [applicableNames, strategiesFor, himg, List.filter_cons]
    rw [hl]; decide
  · intro hpdf h1 h2 h3 h4 h5
    have e1 : strEndsWith (strToLower url) ".jpeg" = false :=
      endsWith_clash _ (by decide) (by decide) hpdf
    have e2 : strEndsWith (strToLower url) ".jpg" = false :=
      endsWith_clash _ (by decide) (by decide) hpdf
    have e3 : strEndsWith (strToLower url) ".png" = false :=
      endsWith_clash _ (by decide) (by decide) hpdf
    have e4 : strEndsWith (strToLower url) ".webp" = false :=
      endsWith_clash _ (by decide) (by decide) hpdf
    have e5 : strEndsWith (strToLower url) ".gif" = false :=
      endsWith_clash _ (by decide) (by decide) hpdf
    have himg : isImage url = false := by
      simp [isImage, h1, h2, h3, h4, h5, e1, e2, e3, e4, e5]
    have hl : applicableNames enc url =
        ["Direct", "CorsProxy.io", "AllOrigins", "ThingProxy"] := by
      simp [applicableNames, strategiesFor, himg, List.filter_cons]
    rw [hl]; decide

/-- Concrete run of C4 (amended): a `.png` URL gets the WeServer strategy,
a plain `.pdf` URL does not. -/
theorem weServer_applicability_witness :
    "WeServer" ∈ applicableNames id "http://x/scan.png" ∧
    "WeServer" ∉ applicableNames id "http://x/bill.pdf" := by
  exact ⟨(weServer_applicability id "http://x/scan.png").1 (by decide),
    (weServer_applicability id "http://x/bill.pdf").2 (by decide) (by decide)
      (by decide) (by decide) (by decide) (by decide)⟩

/-- Claim C5: a strategy attempt whose response has a success status but an
HTML content type is treated as failed with the error-page message; the
failure is recorded in the error accumulator and the loop proceeds with
the next strategies. -/
theorem html_response_is_failure
    (url : String) (env : String → FetchOutcome) (s : Strategy) (rest : List Strategy)
    (acc : List String) (r : Response)
    (hskip : s.skip = false) (henv : env s.name = FetchOutcome.resp r)
    (hok : r.ok = true) (hhtml : strContains r.blob.type "text/html" = true) :
    attemptStrategy url env s =
      Except.error "Received HTML instead of binary data (likely an error page)" ∧
    fetchLoop url env (s :: rest) acc =
      fetchLoop url env rest
        (acc ++ [s.name ++ ": " ++ "Received HTML instead of binary data (likely an error page)"]) := by
  have hatt : attemptStrategy url env s =
      Except.error "Received HTML instead of binary data (likely an error page)" := by
    simp [attemptStrategy, henv, hok, hhtml]
  exact ⟨hatt, by simp [fetchLoop, hskip, hatt]⟩

/-- A network environment that always answers 200 with an HTML error page. -/
def htmlEnv : String → FetchOutcome :=
  fun _ => FetchOutcome.resp
    ⟨true, 200, "OK", ⟨"text/html; charset=utf-8", 5000, "data:text/html;base64,QUJD"⟩⟩

/-- Concrete run of C5: a 200 HTML answer fails the attempt and is recorded. -/
theorem html_response_is_failure_witness :
    attemptStrategy "u" htmlEnv ⟨"CorsProxy.io", false, "u"⟩ =
      Except.error "Received HTML instead of binary data (likely an error page)" ∧
    fetchLoop "u" htmlEnv [⟨"CorsProxy.io", false, "u"⟩] [] =
      fetchLoop "u" htmlEnv []
        ["CorsProxy.io" ++ ": " ++ "Received HTML instead of binary data (likely an error page)"] := by
  have h := html_response_is_failure "u" htmlEnv ⟨"CorsProxy.io", false, "u"⟩ [] []
    ⟨true, 200, "OK", ⟨"text/html; charset=utf-8", 5000, "data:text/html;base64,QUJD"⟩⟩
    rfl rfl rfl (by decide)
  exact ⟨h.1, by simpa using h.2⟩

/-- Claim C6: a strategy attempt whose body is smaller than 100 bytes is
never accepted, whatever the `ok` flag says; when the status is ok and the
body is not HTML the recorded reason is the too-small message; in every
case the loop records the failure and proceeds with the next strategies. -/
theorem small_body_rejected
    (url : String) (env : String → FetchOutcome) (s : Strategy) (rest : List Strategy)
    (acc : List String) (r : Response)
    (hskip : s.skip = false) (henv : env s.name = FetchOutcome.resp r)
    (hsize : r.blob.size < 100) :
    (∃ m, attemptStrategy url env s = Except.error m) ∧
    (r.ok = true → strContains r.blob.type "text/html" = false →
      attemptStrategy url env s =
        Except.error ("Blob size too small (" ++ toString r.blob.size ++ " bytes)")) ∧
    fetchLoop url env (s :: rest) acc =
      fetchLoop url env rest (acc ++ [s.name ++ ": " ++ attemptErrMsg url env s]) := by
  have hferr : ∃ m, attemptStrategy url env s = Except.error m := by
    cases hok : r.ok with
    | false =>
      exact ⟨"HTTP " ++ toString r.status ++ ": " ++ r.statusText,
        by simp [attemptStrategy, henv, hok]⟩
    | true =>
      cases hhtml : strContains r.blob.type "text/html" with
      | true =>
        exact ⟨"Received HTML instead of binary data (likely an error page)",
          by simp [attemptStrategy, henv, hok, hhtml]⟩
      | false =>
        exact ⟨"Blob size too small (" ++ toString r.blob.size ++ " bytes)",
          by simp [attemptStrategy, henv, hok, hhtml, hsize]⟩
  obtain ⟨m, hm⟩ := hferr
  refine ⟨⟨m, hm⟩, ?_, ?_⟩
  · intro hok hhtml
    simp [attemptStrategy, henv, hok, hhtml, hsize]
  · have hem : attemptErrMsg url env s = m := by simp [attemptErrMsg, hm]
    rw [hem]
    simp [fetchLoop, hskip, hm]

/-- A network environment that always answers 200 with a 50-byte body. -/
def tinyEnv : String → FetchOutcome :=
  fun _ => FetchOutcome.resp ⟨true, 200, "OK", ⟨"image/png", 50, "data:image/png;base64,QUJD"⟩⟩

/-- Concrete run of C6: a 50-byte body with a 200 status is rejected as
too small and the loop moves on. -/
theorem small_body_rejected_witness :
    attemptStrategy "u" tinyEnv ⟨"Direct", false, "u"⟩ =
      Except.error "Blob size too small (50 bytes)" ∧
    fetchLoop "u" tinyEnv [⟨"Direct", false, "u"⟩] [] =
      fetchLoop "u" tinyEnv []
        ["Direct" ++ ": " ++ attemptErrMsg "u" tinyEnv ⟨"Direct", false, "u"⟩] := by
  have h := small_body_rejected "u" tinyEnv ⟨"Direct", false, "u"⟩ [] []
    ⟨true, 200, "OK", ⟨"image/png", 50, "data:image/png;base64,QUJD"⟩⟩
    rfl rfl (by decide)
  exact ⟨h.2.1 rfl (by decide), by simpa using h.2.2⟩

/-- Claim C7: the final MIME type is the declared content type when
non-generic; with a generic/absent declared type it is inferred from the
URL extension (`.pdf` gives `application/pdf`, `.png` gives `image/png`),
defaulting to `application/pdf` when no extension is recognized — on both
the client (`getMimeType`) and the server (`serverMimeType`) paths. -/
theorem mime_type_inference (url bt : String) :
    (bt ≠ "" → bt ≠ "application/octet-stream" →
      bt ≠ "application/x-www-form-urlencoded" → getMimeType url bt = bt) ∧
    ((bt = "" ∨ bt = "application/octet-stream" ∨ bt = "application/x-www-form-urlencoded") →
      (strEndsWith (cleanLower url) ".pdf" = true → getMimeType url bt = "application/pdf") ∧
      (strEndsWith (cleanLower url) ".png" = true → getMimeType url bt = "image/png") ∧
      (strEndsWith (cleanLower url) ".png" = false →
        strEndsWith (cleanLower url) ".jpg" = false →
        strEndsWith (cleanLower url) ".jpeg" = false →
        strEndsWith (cleanLower url) ".pdf" = false →
        strEndsWith (cleanLower url) ".webp" = false →
        getMimeType url bt = "application/pdf")) ∧
    ((bt ≠ "" ∧ bt ≠ "application/octet-stream" ∧ bt ≠ "binary/octet-stream") →
      serverMimeType url (some bt) = bt) ∧
    (strEndsWith (strToLower url) ".pdf" = true →
      serverMimeType url none = "application/pdf") ∧
    (strEndsWith (strToLower url) ".png" = true →
      serverMimeType url none = "image/png") := by
  refine ⟨?_, ?_, ?_, ?_, ?_⟩
  · intro h1 h2 h3
    simp [getMimeType, h1, h2, h3]
  · intro hg
    have hcond : ¬(bt ≠ "" ∧ bt ≠ "application/octet-stream" ∧
        bt ≠ "application/x-www-form-urlencoded") := by
      rcases hg with rfl | rfl | rfl <;> simp
    refine ⟨?_, ?_, ?_⟩
    · intro hpdf
      have f1 : strEndsWith (cleanLower url) ".png" = false :=
        endsWith_clash _ (by decide) (by decide) hpdf
      have f2 : strEndsWith (cleanLower url) ".jpg" = false :=
        endsWith_clash _ (by decide) (by decide) hpdf
      have f3 : strEndsWith (cleanLower url) ".jpeg" = false :=
        endsWith_clash _ (by decide) (by decide) hpdf
      simp [getMimeType, hcond, hpdf, f1, f2, f3]
    · intro hpng
      simp [getMimeType, hcond, hpng]
    · intro f1 f2 f3 f4 f5
      simp [getMimeType, hcond, f1, f2, f3, f4, f5]
  · rintro ⟨h1, h2, h3⟩
    simp [serverMimeType, jsFalsyStr, h1, h2, h3]
  · intro hpdf
    have f1 : strEndsWith (strToLower url) ".png" = false :=
      endsWith_clash _ (by decide) (by decide) hpdf
    have f2 : strEndsWith (strToLower url) ".jpg" = false :=
      endsWith_clash _ (by decide) (by decide) hpdf
    have f3 : strEndsWith (strToLower url) ".jpeg" = false :=
      endsWith_clash _ (by decide) (by decide) hpdf
    have f4 : strEndsWith (strToLower url) ".webp" = false :=
      endsWith_clash _ (by decide) (by decide) hpdf
    simp [serverMimeType, jsFalsyStr, serverUrlMimeFallback, f1, f2, f3, f4]
  · intro hpng
    simp [serverMimeType, jsFalsyStr, serverUrlMimeFallback, hpng]

/-- Concrete runs of C7 on both the client and the server MIME paths. -/
theorem mime_type_inference_witness :
    getMimeType "http://h/bill.pdf?x=1" "text/plain" = "text/plain" ∧
    getMimeType "http://h/bill.pdf?x=1" "" = "application/pdf" ∧
    getMimeType "http://h/scan.PNG" "application/octet-stream" = "image/png" ∧
    getMimeType "http://h/doc" "" = "application/pdf" ∧
    serverMimeType "u" (some "image/webp") = "image/webp" ∧
    serverMimeType "http://h/bill.pdf" none = "application/pdf" ∧
    serverMimeType "http://h/scan.png" none = "image/png" := by
  refine ⟨?_, ?_, ?_, ?_, ?_, ?_, ?_⟩
  · exact (mime_type_inference "http://h/bill.pdf?x=1" "text/plain").1
      (by decide) (by decide) (by decide)
  · exact ((mime_type_inference "http://h/bill.pdf?x=1" "").2.1 (Or.inl rfl)).1 (by decide)
  · exact ((mime_type_inference "http://h/scan.PNG" "application/octet-stream").2.1
      (Or.inr (Or.inl rfl))).2.1 (by decide)
  · exact ((mime_type_inference "http://h/doc" "").2.1 (Or.inl rfl)).2.2
      (by decide) (by decide) (by decide) (by decide) (by decide)
  · exact (mime_type_inference "u" "image/webp").2.2.1 ⟨by decide, by decide, by decide⟩
  · exact (mime_type_inference "http://h/bill.pdf" "x").2.2.2.1 (by decide)
  · exact (mime_type_inference "http://h/scan.png" "x").2.2.2.2 (by decide)

/-- Claim C8, counterexample: a file with an empty declared type yields a
payload whose MIME type is the empty string — no generic default (such as
an octet-stream or PDF type) is substituted. -/
theorem filePart_empty_type_counterexample :
    (fileToGenerativePart ⟨"", "data:;base64,QUJD"⟩).mimeType = "" ∧
    ("" : String) ≠ "application/octet-stream" ∧
    ("" : String) ≠ "application/pdf" := by
  decide

/-- Claim C8 (amended): for every embedded file payload the fetcher
attempts no network strategy (the result is independent of the network
environment) and the payload's MIME type is exactly the file's own
declared type, even when that type is empty. -/
theorem filePart_uses_declared_type (enc : String → String)
    (env env' : String → FetchOutcome) (f : JSFile) :
    extractBillFilePart enc env (BillInput.file f) = Except.ok (fileToGenerativePart f) ∧
    (fileToGenerativePart f).mimeType = f.type ∧
    extractBillFilePart enc env (BillInput.file f) =
      extractBillFilePart enc env' (BillInput.file f) :=
  ⟨rfl, rfl, rfl⟩

/-- Claim C9, counterexample: the missing-document 400 response body of
`POST /extract-bill-data` has no `is_success` field at all, so it is not
of the shape `{is_success: false, error: string}` the claim requires for
every failing request. -/
theorem route_missing_document_counterexample :
    extractBillDataRoute none (some "key") (Except.ok ()) =
      RouteResult.failure 400 ⟨none, "No document URL provided"⟩ ∧
    (ErrorBody.mk none "No document URL provided").is_success ≠ some false := by
  decide

/-- Claim C9 (amended): a falsy `document` yields `400 {error: ...}` and a
falsy API key yields `500 {error: ...}`, both without an `is_success`
field; only an extraction failure caught by the handler yields the full
`500 {is_success: false, error: message}` shape. -/
theorem route_failure_shapes (document apiKey : Option String) (msg : String) :
    (jsFalsyStr document = true →
      extractBillDataRoute document apiKey (Except.error msg) =
        RouteResult.failure 400 ⟨none, "No document URL provided"⟩) ∧
    (jsFalsyStr document = false → jsFalsyStr apiKey = true →
      extractBillDataRoute document apiKey (Except.error msg) =
        RouteResult.failure 500 ⟨none, "Server misconfiguration: API_KEY missing"⟩) ∧
    (jsFalsyStr document = false → jsFalsyStr apiKey = false →
      extractBillDataRoute document apiKey (Except.error msg) =
        RouteResult.failure 500 ⟨some false, msg⟩) := by
  refine ⟨fun h => ?_, fun h1 h2 => ?_, fun h1 h2 => ?_⟩
  · simp [extractBillDataRoute, h]
  · simp [extractBillDataRoute, h1, h2]
  · simp [extractBillDataRoute, h1, h2]

/-- Concrete runs of C9 (amended): the three failure paths of the route. -/
theorem route_failure_shapes_witness :
    extractBillDataRoute (some "") (some "k") (Except.error "x") =
      RouteResult.failure 400 ⟨none, "No document URL provided"⟩ ∧
    extractBillDataRoute (some "http://d") none (Except.error "x") =
      RouteResult.failure 500 ⟨none, "Server misconfiguration: API_KEY missing"⟩ ∧
    extractBillDataRoute (some "http://d") (some "k") (Except.error "boom") =
      RouteResult.failure 500 ⟨some false, "boom"⟩ := by
  exact ⟨(route_failure_shapes (some "") (some "k") "x").1 (by decide),
    (route_failure_shapes (some "http://d") none "x").2.1 (by decide) (by decide),
    (route_failure_shapes (some "http://d") (some "k") "boom").2.2 (by decide) (by decide)⟩

/-- Claim C10: when every strategy fails, the aggregate message reports the
length of the full static strategy list — always 5 — while for a non-image
URL only 4 strategies are attempted and enumerated in the details. -/
theorem exhausted_message_static_count
    (enc : String → String) (url : String) (env : String → FetchOutcome) (msg : String)
    (himg : isImage url = false)
    (h : urlToGenerativePart enc url env = Except.error msg) :
    (strategiesFor enc url).length = 5 ∧
    strContains msg "Tried 5 methods" = true ∧
    attemptedNames url env (strategiesFor enc url) = applicableNames enc url ∧
    (applicableNames enc url).length = 4 := by
  simp only [urlToGenerativePart] at h
  cases hfl : fetchLoop url env (strategiesFor enc url) [] with
  | inl part => rw [hfl] at h; simp at h
  | inr errs =>
    rw [hfl] at h
    simp only [Except.error.injEq] at h
    obtain ⟨h1, h2⟩ := fetchLoop_exhausted url env _ [] errs hfl
    refine ⟨rfl, ?_,
      attemptedNames_exhausted url env _ (fun s hs hskip => ⟨_, h1 s hs hskip⟩), ?_⟩
    · have hlen : (strategiesFor enc url).length = 5 := rfl
      rw [← h, hlen]
      exact strContains_addRight _ _ _ (by decide)
    · simp [applicableNames, strategiesFor, himg, List.filter_cons]

/-- Concrete run of C10: every request failing for a non-image URL, the
message says 5 methods while 4 strategies were attempted. -/
theorem exhausted_message_static_count_witness :
    (strategiesFor id "http://example.com/doc.pdf").length = 5 ∧
    strContains
      "Failed to fetch document. Tried 5 methods.\nDetails:\nDirect: boom\nCorsProxy.io: boom\nAllOrigins: boom\nThingProxy: boom"
      "Tried 5 methods" = true ∧
    attemptedNames "http://example.com/doc.pdf" allFailEnv
        (strategiesFor id "http://example.com/doc.pdf") =
      applicableNames id "http://example.com/doc.pdf" ∧
    (applicableNames id "http://example.com/doc.pdf").length = 4 := by
  exact exhausted_message_static_count id "http://example.com/doc.pdf" allFailEnv
    "Failed to fetch document. Tried 5 methods.\nDetails:\nDirect: boom\nCorsProxy.io: boom\nAllOrigins: boom\nThingProxy: boom"
    (by decide) (by rfl)

end BillExtractor
